import Mathlib

/-!
Verification of the grubengeraet extraction pipeline.

This development is a shallow embedding of the extractor component
(`grubengeraet/extractor/scraper.py` and `grubengeraet/extractor/__main__.py`):

* range-string parsing (`parse_range`) and Python `range` value sequences,
* the like-count extractor (`get_amount_of_likes`),
* the tokenizer (`split_words`),
* the rule-compliance evaluator (`rules_reworked`),
* the emoji-neutralization pass (`clean_emojis`),
* the page source reader and table builder (`construct_dataframe`), and
* the multi-worker partitioned orchestrator of `__main__`.

HTML documents are modelled structurally: a page file is a named entry
holding the list of message posts it contains, a reactions bar is a list of
`bdi`/text nodes, and a message body is a tree of tags and text.  Python
strings are modelled as `String`/`List Char`, Python `int` as `Int`/`Nat`
with explicit parsing, and exceptions as `Except PyErr`.
-/

namespace Grubengeraet

/-- Exceptions raised by the embedded code paths: `ValueError` (bad range
string, both ranges supplied, `pd.concat` on an empty list) and `IndexError`
(`re.findall(..)[0]` on a filename without digits). -/
inductive PyErr where
  | valueError
  | indexError
deriving DecidableEq, Repr

/-! ## Character classes and small Python string helpers -/

/-- Python `str.isspace`-style whitespace as used by `str.strip()` and the
regex class `\s`, modelled on the ASCII subset (space, tab, newline,
carriage return, vertical tab, form feed).  The inputs settled here are
covered by this subset. -/
def pyWhitespace (c : Char) : Bool :=
  c = ' ' || c = '\t' || c = '\n' || c = '\r' || c = Char.ofNat 11 || c = Char.ofNat 12

/-- `WHITESPACES` from `scraper.py` lines 19-21: the characters with code
points 847, 4447, 4448, 6068, 6069 and 32. -/
def WHITESPACES : List Char :=
  [Char.ofNat 847, Char.ofNat 4447, Char.ofNat 4448,
   Char.ofNat 6068, Char.ofNat 6069, Char.ofNat 32]

/-- `PUNCTUATION` from `scraper.py` line 24.  The Python source is the raw
string `r".?!\"„“‚‘»«‹›,;:'’–—‐\-·/\()\[\]<>{}…☞‽¡¿⸘、"`; a raw literal keeps
its backslashes, so the *string* (used by the `last_char not in PUNCTUATION`
membership test of `rules_reworked`) contains literal backslash characters.
Code points 92, 34, 39, 123 and 125 are backslash, double quote, apostrophe
and the two curly braces. -/
def PUNCTUATION : List Char :=
  ['.', '?', '!', Char.ofNat 92, Char.ofNat 34, '„', '“', '‚', '‘', '»', '«',
   '‹', '›', ',', ';', ':', Char.ofNat 39, '’', '–', '—', '‐', Char.ofNat 92,
   '-', '·', '/', Char.ofNat 92, '(', ')', Char.ofNat 92, '[', Char.ofNat 92,
   ']', '<', '>', Char.ofNat 123, Char.ofNat 125, '…', '☞', '‽', '¡', '¿',
   '⸘', '、']

/-- The character set of the regex class `[\s{PUNCTUATION}]` used by
`split_words` (`scraper.py` line 501), punctuation part.  Inside a regex
character class each `\` of the raw string escapes the following character
(`\"`, `\-`, `\(`, `\[`, `\]`), so the class holds the same characters as
the `PUNCTUATION` string except the literal backslash itself. -/
def SPLIT_PUNCT : List Char :=
  PUNCTUATION.filter (fun c => c ≠ Char.ofNat 92)

/-- Regex `\w` (word character) as used by `re.search(r"\w", i)` in
`split_words`, modelled on the ASCII subset: letters, digits, underscore. -/
def wordChar (c : Char) : Bool :=
  c.isAlphanum || c = '_'

/-- Strip characters satisfying `p` from both ends of a character list
(Python `str.strip` semantics). -/
def stripChars (p : Char → Bool) (cs : List Char) : List Char :=
  ((cs.dropWhile p).reverse.dropWhile p).reverse

/-- Python `content.strip()` followed by `content.strip(WHITESPACES)`, the
two trims at the top of `rules_reworked` (`scraper.py` lines 550-551). -/
def stripBoth (cs : List Char) : List Char :=
  stripChars (fun c => WHITESPACES.contains c) (stripChars pyWhitespace cs)

/-- First maximal run of decimal digits in a character list: the value of
`re.findall(r"\d+", s)[0]`, or `[]` when `findall` finds nothing (in which
case the Python indexing raises `IndexError`). -/
def firstDigitRun : List Char → List Char
  | [] => []
  | c :: rest =>
    if c.isDigit then c :: rest.takeWhile (fun d => d.isDigit)
    else firstDigitRun rest

/-- Decimal value of a digit run. -/
def digitsToNat (ds : List Char) : Nat :=
  ds.foldl (fun acc c => acc * 10 + (c.toNat - 48)) 0

/-- `re.split` on a single-character class: split at every matching
character, keeping empty fragments; splitting the empty string yields one
empty fragment. -/
def reSplit (p : Char → Bool) : List Char → List (List Char)
  | [] => [[]]
  | c :: rest =>
    if p c then [] :: reSplit p rest
    else
      match reSplit p rest with
      | [] => [[c]]
      | g :: gs => (c :: g) :: gs

/-- Python `s.split(",")`: split at every comma, keeping empty fragments;
`"".split(",")` is `[""]`. -/
def splitOnComma (cs : List Char) : List (List Char) :=
  reSplit (fun c => c = ',') cs

/-- No two consecutive underscores (part of the digit-grouping rule of
Python's `int()`). -/
def noDoubleUnderscore : List Char → Bool
  | a :: b :: rest => !(a = '_' && b = '_') && noDoubleUnderscore (b :: rest)
  | _ => true

/-- A valid `int()` digit body: non-empty, made of digits and grouping
underscores, beginning and ending with a digit, with no two consecutive
underscores. -/
def validIntDigits (ds : List Char) : Bool :=
  !ds.isEmpty
    && ds.all (fun c => c.isDigit || c = '_')
    && (ds.headD '0').isDigit
    && (ds.getLastD '0').isDigit
    && noDoubleUnderscore ds

/-- Python `int(s)` on a string: optional surrounding whitespace, optional
sign, then digits with optional grouping underscores; `none` models the
`ValueError` raised on anything else. -/
def pyInt (cs : List Char) : Option Int :=
  let cs := stripChars pyWhitespace cs
  match cs with
  | [] => none
  | c :: rest =>
    let signed : Bool × List Char :=
      if c = '-' then (true, rest)
      else if c = '+' then (false, rest)
      else (false, c :: rest)
    if validIntDigits signed.2 then
      let v : Int := Int.ofNat (digitsToNat (signed.2.filter (fun d => d.isDigit)))
      some (if signed.1 then -v else v)
    else none

/-- `Option`-valued map over a list that fails on the first failing element
(the list comprehension `[int(i) for i in parts]`, whose `int` may raise). -/
def optMapList (f : α → Option β) : List α → Option (List β)
  | [] => some []
  | a :: as =>
    match f a with
    | none => none
    | some b =>
      match optMapList f as with
      | none => none
      | some bs => some (b :: bs)

/-! ## Range model (`extractor/__main__.py` lines 14-28) -/

/-- A Python `range(start, stop, step)` object. -/
structure PyRange where
  start : Int
  stop : Int
  step : Int
deriving DecidableEq, Repr

/-- `parse_range` from `extractor/__main__.py`: split the string on commas,
require 2 or 3 components (`ValueError` otherwise), convert each with
`int()` (`ValueError` on a non-integer component), and build
`range(*nums)`; Python's `range` itself raises `ValueError` on step 0. -/
def parse_range (s : String) : Except PyErr PyRange :=
  let parts := splitOnComma s.data
  if parts.length = 2 || parts.length = 3 then
    match optMapList pyInt parts with
    | none => Except.error PyErr.valueError
    | some [a, b] => Except.ok ⟨a, b, 1⟩
    | some [a, b, c] =>
      if c = 0 then Except.error PyErr.valueError else Except.ok ⟨a, b, c⟩
    | some _ => Except.error PyErr.valueError
  else Except.error PyErr.valueError

/-- Number of values of a Python range: `max 0 (ceil ((stop-start)/step))`
for positive step, symmetrically for negative step (step 0 never occurs:
`range` construction rejects it). -/
def rangeLen (r : PyRange) : Nat :=
  if r.step > 0 then ((r.stop - r.start + r.step - 1) / r.step).toNat
  else ((r.start - r.stop + (-r.step) - 1) / (-r.step)).toNat

/-- The value sequence of a Python range, in iteration order. -/
def rangeValues (r : PyRange) : List Int :=
  (List.range (rangeLen r)).map (fun i => r.start + r.step * i)

/-- Helper for C7: `optMapList` fails whenever one element fails. -/
theorem optMapList_eq_none {f : α → Option β} {l : List α}
    (h : ∃ p ∈ l, f p = none) : optMapList f l = none := by
  induction l with
  | nil => rcases h with ⟨p, hp, _⟩; cases hp
  | cons a as ih =>
    rcases h with ⟨p, hp, hnone⟩
    rcases List.mem_cons.mp hp with rfl | hmem
    · simp [optMapList, hnone]
    · unfold optMapList
      rcases hfa : f a with _ | b
      · rfl
      · rw [ih ⟨p, hmem, hnone⟩]

/-- C7: `parse_range "1,21"` yields `range(1, 21)` whose values are exactly
1..20 (stop exclusive), `parse_range "1,21,2"` yields `range(1, 21, 2)`
whose values are exactly 1, 3, ..., 19, and every string with fewer than 2
or more than 3 comma-separated components, or with a component rejected by
`int()`, makes `parse_range` fail with a `ValueError`. -/
theorem C7_range_parsing :
    parse_range "1,21" = Except.ok ⟨1, 21, 1⟩ ∧
    rangeValues ⟨1, 21, 1⟩ =
      [1, 2, 3, 4, 5, 6, 7, 8, 9, 10, 11, 12, 13, 14, 15, 16, 17, 18, 19, 20] ∧
    parse_range "1,21,2" = Except.ok ⟨1, 21, 2⟩ ∧
    rangeValues ⟨1, 21, 2⟩ = [1, 3, 5, 7, 9, 11, 13, 15, 17, 19] ∧
    ∀ s : String,
      (((splitOnComma s.data).length ≠ 2 ∧ (splitOnComma s.data).length ≠ 3) ∨
        ∃ p ∈ splitOnComma s.data, pyInt p = none) →
      parse_range s = Except.error PyErr.valueError := by
  refine ⟨by rfl, by decide, by rfl, by decide, ?_⟩
  intro s h
  unfold parse_range
  rcases h with ⟨h2, h3⟩ | hbad
  · have : ((splitOnComma s.data).length = 2 || (splitOnComma s.data).length = 3) = false := by
      simp [h2, h3]
    simp only [this, Bool.false_eq_true, if_false]
  · by_cases hlen : ((splitOnComma s.data).length = 2 || (splitOnComma s.data).length = 3) = true
    · simp only [hlen, if_true]
      rw [optMapList_eq_none hbad]
    · simp only [Bool.not_eq_true] at hlen
      simp only [hlen, Bool.false_eq_true, if_false]

/-- C7 witness: a one-component string is rejected. -/
theorem C7_range_parsing_witness :
    parse_range "x" = Except.error PyErr.valueError :=
  C7_range_parsing.2.2.2.2 "x" (Or.inl (by decide))

/-! ## Like-count extractor (`scraper.py` lines 319-352) -/

/-- An inline node of the reactions bar (`a.reactionsBar-link`): either a
`bdi` element holding one reactor's username, or plain text. -/
inductive BarNode where
  | bdi : String → BarNode
  | text : String → BarNode
deriving DecidableEq, Repr

/-- Whether a bar node is a `bdi` element (a reactor username). -/
def isBdi : BarNode → Bool
  | BarNode.bdi _ => true
  | BarNode.text _ => false

/-- The `for bdi in likes_bar("bdi"): bdi.decompose()` loop: remove every
`bdi` node from the bar. -/
def decomposeBdis (bar : List BarNode) : List BarNode :=
  bar.filter (fun n => !isBdi n)

/-- Text of one bar node as seen by `get_text(strip=True)`: the node's text
with surrounding whitespace stripped. -/
def nodeTextStrip : BarNode → List Char
  | BarNode.bdi name => stripChars pyWhitespace name.data
  | BarNode.text s => stripChars pyWhitespace s.data

/-- `likes_bar.get_text(strip=True)`: concatenation of the stripped text
fragments of the remaining nodes. -/
def getTextStrip (bar : List BarNode) : List Char :=
  bar.flatMap nodeTextStrip

/-- `get_amount_of_likes`: 0 when the reactions element is absent; the
number of `bdi` reactor names when fewer than 3; otherwise usernames are
decomposed and `int(re.findall(r"\d+", text)[0]) + num_likes` is returned,
falling back to `num_likes` when the `IndexError` of an absent digit run is
caught. -/
def get_amount_of_likes (likes_bar : Option (List BarNode)) : Nat :=
  match likes_bar with
  | none => 0
  | some bar =>
    let num_likes := (bar.filter isBdi).length
    if num_likes < 3 then num_likes
    else
      let t := getTextStrip (decomposeBdis bar)
      let ds := firstDigitRun t
      if ds.isEmpty then num_likes else digitsToNat ds + num_likes

/-- The residual integer of a reactions bar: the first digit run left in
its text after removing the reactor usernames, if any. -/
def residualInt (bar : List BarNode) : Option Nat :=
  let ds := firstDigitRun (getTextStrip (decomposeBdis bar))
  if ds.isEmpty then none else some (digitsToNat ds)

/-- C3 counterexample: a reactions bar listing 4 reactor names and no
residual text yields like count 4, not the 3 the claim demands for the
no-residual-integer case. -/
theorem C3_likes_counterexample :
    get_amount_of_likes
      (some [BarNode.bdi "a", BarNode.bdi "b", BarNode.bdi "c", BarNode.bdi "d"]) ≠ 3 ∧
    get_amount_of_likes
      (some [BarNode.bdi "a", BarNode.bdi "b", BarNode.bdi "c", BarNode.bdi "d"]) = 4 := by
  exact ⟨by decide, by decide⟩

/-- C3 (amended): absent element gives 0; fewer than 3 reactor names give
that number exactly; at 3 or more names the result is the residual integer
plus the *number of listed names* (not plus 3), or exactly that number when
no residual integer exists; the two boundary examples from the spec hold. -/
theorem C3_likes_amended :
    get_amount_of_likes none = 0 ∧
    (∀ bar : List BarNode, (bar.filter isBdi).length < 3 →
      get_amount_of_likes (some bar) = (bar.filter isBdi).length) ∧
    (∀ bar : List BarNode, 3 ≤ (bar.filter isBdi).length →
      (residualInt bar = none →
        get_amount_of_likes (some bar) = (bar.filter isBdi).length) ∧
      (∀ k, residualInt bar = some k →
        get_amount_of_likes (some bar) = k + (bar.filter isBdi).length)) ∧
    get_amount_of_likes (some [BarNode.bdi "a", BarNode.bdi "b"]) = 2 ∧
    get_amount_of_likes (some [BarNode.bdi "a", BarNode.bdi "b", BarNode.bdi "c",
      BarNode.text "und 5 weitere"]) = 8 := by
  refine ⟨rfl, ?_, ?_, by decide, by decide⟩
  · intro bar h
    simp only [get_amount_of_likes, if_pos h]
  · intro bar h
    have hnot : ¬ (bar.filter isBdi).length < 3 := not_lt.mpr h
    constructor
    · intro hres
      simp only [residualInt] at hres
      by_cases hds : (firstDigitRun (getTextStrip (decomposeBdis bar))).isEmpty
      · simp only [get_amount_of_likes, if_neg hnot, if_pos hds]
      · simp only [if_neg hds] at hres
        exact (Option.some_ne_none _ hres).elim
    · intro k hres
      simp only [residualInt] at hres
      by_cases hds : (firstDigitRun (getTextStrip (decomposeBdis bar))).isEmpty
      · simp only [if_pos hds] at hres
        exact Option.noConfusion hres
      · simp only [if_neg hds, Option.some.injEq] at hres
        simp only [get_amount_of_likes, if_neg hnot, if_neg hds, hres]

/-- C3 witness: a bar with one reactor name has like count 1 (via the
fewer-than-3 branch of the amended theorem). -/
theorem C3_likes_amended_witness :
    get_amount_of_likes (some [BarNode.bdi "a"]) =
      ([BarNode.bdi "a"].filter isBdi).length :=
  C3_likes_amended.2.1 [BarNode.bdi "a"] (by decide)

/-! ## Tokenizer (`scraper.py` lines 489-502) -/

/-- `split_words`: `re.split` the string on the whitespace-or-punctuation
character class, then keep only fragments containing a word character
(`re.search(r"\w", i)`). -/
def split_words (s : String) : List String :=
  ((reSplit (fun c => pyWhitespace c || SPLIT_PUNCT.contains c) s.data).filter
    (fun t => t.any wordChar)).map (fun t => String.mk t)

/-- C6 counterexample: the tokenizer does split at embedded punctuation;
`not.one"word` does not come back as a single token. -/
theorem C6_split_counterexample :
    split_words "not.one\"word" = ["not", "one", "word"] ∧
    ["not", "one", "word"] ≠ ["not.one\"word"] := by
  exact ⟨by decide, by decide⟩

/-- C6 (amended): `split_words` splits a token at embedded punctuation: on
`not.one"word` it returns the three tokens `not`, `one`, `word`, and the
word count is 3 (exactly as the source comment in `split_words`
documents). -/
theorem C6_split_amended :
    split_words "not.one\"word" = ["not", "one", "word"] ∧
    (split_words "not.one\"word").length = 3 := by
  exact ⟨by decide, by decide⟩

/-! ## Compliance evaluator (`scraper.py` lines 533-589) -/

/-- Modelled from the spec: the module `grubengeraet/extractor/emojis.py`
providing `is_emoji` is not among the sources under verification; per the
spec (§4.6) it decides whether a character "is itself an emoji glyph".
Modelled as membership in the standard emoji code-point blocks. -/
def is_emoji (c : Char) : Bool :=
  (0x1F000 ≤ c.toNat && c.toNat ≤ 0x1FAFF) ||
  (0x2600 ≤ c.toNat && c.toNat ≤ 0x27BF) ||
  (0x2B00 ≤ c.toNat && c.toNat ≤ 0x2BFF) ||
  c.toNat = 0x2764

/-- Regex `\p{L}` (any Unicode letter) as used by the first-letter rule,
modelled on the ASCII subset; likewise `str.isupper` via `Char.isUpper`.
The claims settled here exercise only this subset. -/
def unicodeLetter (c : Char) : Bool :=
  c.isAlpha

/-- `rules_reworked`: strip the content (ordinary whitespace, then the
extended `WHITESPACES` set); an empty remainder fails all three rules at
once; otherwise `word_count` fails below 5 words, `first_letter` fails when
no letter exists or the first letter is not uppercase, and `punctuation`
fails unless the last character of the *stripped* content is in the
`PUNCTUATION` string or is an emoji.  The result models the Python dict
with its insertion order `word_count`, `first_letter`, `punctuation`. -/
def rules_reworked (content : String) (word_count : Nat) : List (String × Bool) :=
  let c := stripBoth content.data
  if c.isEmpty then
    [("word_count", false), ("first_letter", false), ("punctuation", false)]
  else
    let wcOk := !(word_count < 5)
    let flOk :=
      match c.find? unicodeLetter with
      | none => false
      | some ch => ch.isUpper
    let last_char := c.getLastD ' '
    let puOk := PUNCTUATION.contains last_char || is_emoji last_char
    [("word_count", wcOk), ("first_letter", flOk), ("punctuation", puOk)]

/-- The `rulebreak_reasons` list comprehension of `construct_dataframe`
(`scraper.py` lines 215-217): the names of the failed rules, in evaluation
order. -/
def rulebreak_reasons (res : List (String × Bool)) : List String :=
  (res.filter (fun kv => !kv.2)).map (fun kv => kv.1)

/-- C4 counterexample: on content `"Hallo. "` (trailing space, trimmed form
non-empty) the punctuation rule passes, although the last character of the
untrimmed content — the space — is neither in the punctuation set nor an
emoji glyph: the evaluator inspects the trimmed content, not the untrimmed
one. -/
theorem C4_punctuation_counterexample :
    (rules_reworked "Hallo. " 5).lookup "punctuation" = some true ∧
    "Hallo. ".data.getLastD ' ' = ' ' ∧
    PUNCTUATION.contains ' ' = false ∧
    is_emoji ' ' = false := by
  exact ⟨by decide, by decide, by decide, by decide⟩

/-- C4 (amended): for content whose trimmed form is non-empty and any word
count, the punctuation rule passes iff the last character of the *trimmed*
content (ordinary whitespace and the extended whitespace set stripped) is a
member of the fixed punctuation set or is itself an emoji glyph. -/
theorem C4_punctuation_amended (content : String) (word_count : Nat)
    (h : stripBoth content.data ≠ []) :
    (rules_reworked content word_count).lookup "punctuation" =
      some (PUNCTUATION.contains ((stripBoth content.data).getLastD ' ') ||
            is_emoji ((stripBoth content.data).getLastD ' ')) := by
  have hne : (stripBoth content.data).isEmpty = false := by
    simpa [List.isEmpty_iff] using h
  simp only [rules_reworked, hne, Bool.false_eq_true, if_false]
  rfl

/-- C4 witness: content `"Hallo."` with 7 words. -/
theorem C4_punctuation_amended_witness :
    (rules_reworked "Hallo." 7).lookup "punctuation" =
      some (PUNCTUATION.contains ((stripBoth "Hallo.".data).getLastD ' ') ||
            is_emoji ((stripBoth "Hallo.".data).getLastD ' ')) :=
  C4_punctuation_amended "Hallo." 7 (by decide)

/-- C8: content that is empty after trimming fails all three rules at once,
and the rulebreak reasons are exactly `["word_count", "first_letter",
"punctuation"]` in that order. -/
theorem C8_empty_content_rules (content : String) (word_count : Nat)
    (h : stripBoth content.data = []) :
    rules_reworked content word_count =
      [("word_count", false), ("first_letter", false), ("punctuation", false)] ∧
    rulebreak_reasons (rules_reworked content word_count) =
      ["word_count", "first_letter", "punctuation"] := by
  have he : (stripBoth content.data).isEmpty = true := by
    simp [List.isEmpty_iff, h]
  constructor
  · simp only [rules_reworked, he, if_true]
  · simp only [rules_reworked, he, if_true]
    rfl

/-- C8 witness: whitespace-only content with word count 0. -/
theorem C8_empty_content_rules_witness :
    rules_reworked "  " 0 =
      [("word_count", false), ("first_letter", false), ("punctuation", false)] ∧
    rulebreak_reasons (rules_reworked "  " 0) =
      ["word_count", "first_letter", "punctuation"] :=
  C8_empty_content_rules "  " 0 (by decide)

/-! ## Emoji neutralization (`scraper.py` lines 385-405) -/

/-- A node of a message subtree: text, or an element with a tag name, a
class list and children. -/
inductive HNode where
  | text : String → HNode
  | elem : String → List String → List HNode → HNode

/-- Whether a node is an inline emoji image (`img` with class `smilie`). -/
def isSmilie : HNode → Bool
  | HNode.elem tag classes _ => tag = "img" && classes.contains "smilie"
  | HNode.text _ => false

mutual

/-- `clean_emojis`: every inline emoji image node in the subtree is
replaced by a literal `"."` text node (`insert_after(".")` followed by
`decompose()`). -/
def clean_emojis : HNode → HNode
  | HNode.text s => HNode.text s
  | HNode.elem tag classes children => HNode.elem tag classes (cleanChildren children)

/-- `clean_emojis` on a child list. -/
def cleanChildren : List HNode → List HNode
  | [] => []
  | c :: rest =>
    (if isSmilie c then HNode.text "." else clean_emojis c) :: cleanChildren rest

end

mutual

/-- Whether `find_all("img", class_="smilie")` would find anything below a
node (the node's descendants, as `find_all` searches). -/
def hasSmilieIn : HNode → Bool
  | HNode.text _ => false
  | HNode.elem _ _ children => hasSmilieAmong children

/-- Whether a child list contains an emoji image anywhere. -/
def hasSmilieAmong : List HNode → Bool
  | [] => false
  | c :: rest => isSmilie c || hasSmilieIn c || hasSmilieAmong rest

end

/-- `clean_emojis` preserves tag and classes, hence smilie-ness. -/
theorem isSmilie_clean (n : HNode) : isSmilie (clean_emojis n) = isSmilie n := by
  cases n with
  | text s => rfl
  | elem tag classes children => rfl

mutual

/-- A subtree without emoji images below some node is left unchanged. -/
theorem clean_noSmilie_node : (n : HNode) → hasSmilieIn n = false → clean_emojis n = n
  | HNode.text _, _ => rfl
  | HNode.elem tag classes children, h => by
    have hch : hasSmilieAmong children = false := h
    unfold clean_emojis
    rw [clean_noSmilie_list children hch]

/-- A child list without emoji images anywhere is left unchanged. -/
theorem clean_noSmilie_list : (l : List HNode) → hasSmilieAmong l = false → cleanChildren l = l
  | [], _ => rfl
  | c :: rest, h => by
    have h3 : (isSmilie c = false ∧ hasSmilieIn c = false) ∧ hasSmilieAmong rest = false := by
      simpa [hasSmilieAmong, Bool.or_eq_false_iff] using h
    unfold cleanChildren
    rw [if_neg (by simp [h3.1.1]), clean_noSmilie_node c h3.1.2,
      clean_noSmilie_list rest h3.2]

end

mutual

/-- After cleaning, no emoji image remains below a node. -/
theorem clean_result_noSmilie_node : (n : HNode) → hasSmilieIn (clean_emojis n) = false
  | HNode.text _ => rfl
  | HNode.elem tag classes children => by
    unfold clean_emojis hasSmilieIn
    exact clean_result_noSmilie_list children

/-- After cleaning, no emoji image remains in a child list. -/
theorem clean_result_noSmilie_list : (l : List HNode) → hasSmilieAmong (cleanChildren l) = false
  | [] => rfl
  | c :: rest => by
    unfold cleanChildren hasSmilieAmong
    by_cases hs : isSmilie c = true
    · simp only [hs, if_true]
      simp [isSmilie, hasSmilieIn, clean_result_noSmilie_list rest]
    · simp only [hs, if_false]
      have h1 : isSmilie (clean_emojis c) = false := by
        rw [isSmilie_clean]
        exact Bool.not_eq_true _ ▸ (by simpa using hs)
      simp [h1, clean_result_noSmilie_node c, clean_result_noSmilie_list rest]

end

/-- C9: the emoji-neutralization pass is idempotent — cleaning twice equals
cleaning once — and a node below which no inline emoji image remains is left
unchanged by the pass. -/
theorem C9_clean_emojis_idempotent :
    (∀ n : HNode, clean_emojis (clean_emojis n) = clean_emojis n) ∧
    (∀ n : HNode, hasSmilieIn n = false → clean_emojis n = n) := by
  constructor
  · intro n
    exact clean_noSmilie_node (clean_emojis n) (clean_result_noSmilie_node n)
  · intro n h
    exact clean_noSmilie_node n h

/-- C9 witness: an already-neutralized message node is unchanged. -/
theorem C9_clean_emojis_idempotent_witness :
    clean_emojis (HNode.elem "article" ["message"] [HNode.text "Hallo."]) =
      HNode.elem "article" ["message"] [HNode.text "Hallo."] :=
  C9_clean_emojis_idempotent.2 (HNode.elem "article" ["message"] [HNode.text "Hallo."])
    (by rfl)

/-! ## Range arithmetic (`scraper.py` lines 53-86) -/

/-- `get_first_post_from_page`: first post number on a page
(`page_num * 20 - 19`). -/
def get_first_post_from_page (page_num : Int) : Int :=
  page_num * 20 - 19

/-- `get_last_post_from_page`: last post number on a page (`page_num * 20`). -/
def get_last_post_from_page (page_num : Int) : Int :=
  page_num * 20

/-! ## Page source reader and table builder (`scraper.py` lines 113-266)

A directory is a list of entries; an entry is a filename, a directory flag,
and — for a page file — the list of messages it contains.  A message is
abstracted to its post number plus an opaque payload standing for all the
other extracted fields (each of which is a deterministic function of the
message markup, identical in every worker). -/

/-- One entry of the input directory, as seen by `Path(path).iterdir()`. -/
structure DirEntry (α : Type) where
  name : String
  isDir : Bool
  posts : List (Int × α)
deriving DecidableEq, Repr

/-- One row of the result table: the parsed post number, the page number
taken from the filename, and the payload of remaining fields. -/
structure PostRow (α : Type) where
  post_num : Int
  page_num : Int
  payload : α
deriving DecidableEq, Repr

/-- The sort key `re.findall(r"\d+", s.name)[0]` of an entry: the first
digit run of its filename, *as a string*. -/
def entryKey (e : DirEntry α) : List Char :=
  firstDigitRun e.name.data

/-- `int(re.findall(r"\d+", file.name)[0])`: the page number of a file. -/
def pageNumOf (e : DirEntry α) : Int :=
  Int.ofNat (digitsToNat (entryKey e))

/-- Lexicographic (code-point) comparison of character lists: Python's `<`
on the digit-run key strings. -/
def charListLt : List Char → List Char → Bool
  | [], [] => false
  | [], _ :: _ => true
  | _ :: _, [] => false
  | a :: as, b :: bs => a < b || (a = b && charListLt as bs)

/-- The (total, reflexive) key order used to model Python's stable
`sorted(..., key=...)`: `a` may precede `b` iff `b`'s key is not strictly
below `a`'s. -/
def entryLe (a b : DirEntry α) : Prop :=
  charListLt (entryKey b) (entryKey a) = false

instance : DecidableRel (entryLe (α := α)) := fun a b => by
  unfold entryLe; infer_instance

/-- `sorted(Path(path).iterdir(), key=...)`: stable sort of the directory
entries by their digit-run key string. -/
def sortEntries (dir : List (DirEntry α)) : List (DirEntry α) :=
  List.insertionSort entryLe dir

/-- Python truthiness of an optional range/list argument: `None` and an
empty range/list are falsy. -/
def truthy : Option (List Int) → Bool
  | none => false
  | some l => !l.isEmpty

/-- The page prefilter of `construct_dataframe` (lines 145-154): with a
truthy pagerange the page number must lie in it; with a truthy postrange the
first or last post of the page must lie in it. -/
def pageKept (pagerange postrange : Option (List Int)) (pg : Int) : Bool :=
  (match pagerange with
   | none => true
   | some l => l.isEmpty || l.contains pg) &&
  (match postrange with
   | none => true
   | some l =>
     l.isEmpty || l.contains (get_first_post_from_page pg)
       || l.contains (get_last_post_from_page pg))

/-- The per-message post filter (lines 166-168): with a truthy postrange the
post number must lie in it. -/
def postKept (postrange : Option (List Int)) (pn : Int) : Bool :=
  match postrange with
  | none => true
  | some l => l.isEmpty || l.contains pn

/-- The rows contributed by one page file: its messages, post-filtered, each
extracted into a row carrying the page number from the filename. -/
def recordsOfEntry (postrange : Option (List Int)) (e : DirEntry α) : List (PostRow α) :=
  (e.posts.filter (fun p => postKept postrange p.1)).map
    (fun p => ⟨p.1, pageNumOf e, p.2⟩)

/-- The body of the `for file in sorted(...)` loop over an already-sorted
entry list: subdirectories are skipped, pages failing the prefilter are
skipped, and the surviving messages are appended in order. -/
def extractRecords (files : List (DirEntry α)) (pagerange postrange : Option (List Int)) :
    List (PostRow α) :=
  files.flatMap (fun e =>
    if e.isDir then []
    else if pageKept pagerange postrange (pageNumOf e) then recordsOfEntry postrange e
    else [])

/-- Whether some entry's filename has no digit run, making the `sorted` key
function raise `IndexError` (the key is computed for every entry, including
subdirectories, before any file is processed). -/
def hasNoDigitEntry (dir : List (DirEntry α)) : Bool :=
  dir.any (fun e => (entryKey e).isEmpty)

/-- `construct_dataframe`: reject two truthy range arguments with
`ValueError` (line 134); computing the sort keys raises `IndexError` when
any entry's name has no digits (line 139); otherwise visit the entries in
sorted key order and build the table. -/
def construct_dataframe (dir : List (DirEntry α)) (pagerange postrange : Option (List Int)) :
    Except PyErr (List (PostRow α)) :=
  if truthy pagerange && truthy postrange then Except.error PyErr.valueError
  else if hasNoDigitEntry dir then Except.error PyErr.indexError
  else Except.ok (extractRecords (sortEntries dir) pagerange postrange)

/-! ## Partitioned orchestrator (`extractor/__main__.py` lines 126-156) -/

/-- `np.array_split(seq, w)`: `w` contiguous chunks; with `n = len(seq)`,
the first `n % w` chunks have `n / w + 1` elements and the rest `n / w`
(realized recursively: the first chunk takes `n / w` elements plus one when
`n % w ≠ 0`, which yields exactly those sizes). -/
def arraySplit : List Int → Nat → List (List Int)
  | _, 0 => []
  | l, Nat.succ w =>
    let n := l.length
    let s := n / (w + 1) + (if n % (w + 1) = 0 then 0 else 1)
    l.take s :: arraySplit (l.drop s) w

/-- Row comparison used by the final `df.sort_values(by="post_num")`. -/
def rowLe (a b : PostRow α) : Prop :=
  a.post_num ≤ b.post_num

instance : DecidableRel (rowLe (α := α)) := fun a b => by
  unfold rowLe; infer_instance

instance : IsTotal (PostRow α) rowLe :=
  ⟨fun a b => le_total a.post_num b.post_num⟩

instance : IsTrans (PostRow α) rowLe :=
  ⟨fun _ _ _ h1 h2 => le_trans h1 h2⟩

/-- `df.sort_values(by="post_num")` on the concatenated partition tables. -/
def sortByPostNum (l : List (PostRow α)) : List (PostRow α) :=
  List.insertionSort rowLe l

/-- `pool.starmap`: run the worker on every chunk, propagating a worker's
exception. -/
def exceptMapList (f : β → Except PyErr γ) : List β → Except PyErr (List γ)
  | [] => Except.ok []
  | b :: bs =>
    match f b with
    | Except.error e => Except.error e
    | Except.ok g =>
      match exceptMapList f bs with
      | Except.error e => Except.error e
      | Except.ok gs => Except.ok (g :: gs)

/-- The parallel-jobs branch of `extractor/__main__.py`: split the selected
values (page numbers, or post numbers when `isPost`) into `jobs` chunks,
drop empty chunks (`pd.concat` of no tables raises `ValueError`), run
`construct_dataframe` per chunk against the same directory — the chunk
becomes the pagerange, or the postrange when the selection was post-based —
concatenate, and re-sort by `post_num`. -/
def parallel_extract (dir : List (DirEntry α)) (values : List Int) (isPost : Bool)
    (jobs : Nat) : Except PyErr (List (PostRow α)) :=
  let chunks := (arraySplit values jobs).filter (fun c => !c.isEmpty)
  if chunks.isEmpty then Except.error PyErr.valueError
  else
    match exceptMapList (fun c =>
        construct_dataframe dir (if isPost then none else some c)
          (if isPost then some c else none)) chunks with
    | Except.error e => Except.error e
    | Except.ok dfs => Except.ok (sortByPostNum dfs.flatten)

/-! ## C5: mutual exclusion of the two selectors -/

/-- C5 counterexample: an empty pagerange together with a non-empty
postrange — both supplied, neither `None` — is *not* rejected: the truthiness
test `all([pagerange, postrange])` treats the empty range as absent and
`construct_dataframe` produces a table. -/
theorem C5_both_ranges_counterexample :
    construct_dataframe ([] : List (DirEntry Unit)) (some ([] : List Int)) (some [1, 2]) =
      Except.ok [] := by
  rfl

/-- C5 (amended): for every pair of supplied *non-empty* page-range and
post-range selectors, `construct_dataframe` fails with a `ValueError`
instead of producing a table. -/
theorem C5_both_ranges_amended (dir : List (DirEntry Unit))
    (pagerange postrange : List Int) (h1 : pagerange ≠ []) (h2 : postrange ≠ []) :
    construct_dataframe dir (some pagerange) (some postrange) =
      Except.error PyErr.valueError := by
  have ht : (truthy (some pagerange) && truthy (some postrange)) = true := by
    simp [truthy, List.isEmpty_iff, h1, h2]
  simp only [construct_dataframe, ht, if_true]

/-- C5 witness: both selectors non-empty on an empty directory. -/
theorem C5_both_ranges_amended_witness :
    construct_dataframe ([] : List (DirEntry Unit)) (some [1]) (some [2]) =
      Except.error PyErr.valueError :=
  C5_both_ranges_amended [] [1] [2] (by decide) (by decide)

/-! ## C10: the implicit all-filenames-have-digits precondition -/

/-- C10: with at most one truthy selector, `construct_dataframe` raises
`IndexError` — before any page is processed — whenever some directory entry
(subdirectories included, since they are keyed before they are skipped) has
no digit in its name; and it returns a table whenever every entry has one. -/
theorem C10_digitless_entry (dir : List (DirEntry Unit))
    (pagerange postrange : Option (List Int))
    (hr : (truthy pagerange && truthy postrange) = false) :
    ((∃ e ∈ dir, firstDigitRun e.name.data = []) →
      construct_dataframe dir pagerange postrange = Except.error PyErr.indexError) ∧
    ((∀ e ∈ dir, firstDigitRun e.name.data ≠ []) →
      construct_dataframe dir pagerange postrange =
        Except.ok (extractRecords (sortEntries dir) pagerange postrange)) := by
  constructor
  · intro h
    have hnd : hasNoDigitEntry dir = true := by
      rcases h with ⟨e, he, hkey⟩
      unfold hasNoDigitEntry
      refine List.any_eq_true.mpr ⟨e, he, ?_⟩
      simp [entryKey, hkey]
    simp only [construct_dataframe, hr, Bool.false_eq_true, if_false, hnd, if_true]
  · intro h
    have hnd : hasNoDigitEntry dir = false := by
      unfold hasNoDigitEntry
      simp only [List.any_eq_false]
      intro e he
      simp [entryKey, List.isEmpty_iff, h e he]
    simp only [construct_dataframe, hr, Bool.false_eq_true, if_false, hnd]

/-- C10 witness: a directory holding a digitless filename raises
`IndexError`. -/
theorem C10_digitless_entry_witness :
    construct_dataframe [(⟨"style.css", false, []⟩ : DirEntry Unit)] none none =
      Except.error PyErr.indexError :=
  (C10_digitless_entry [⟨"style.css", false, []⟩] none none (by decide)).1
    ⟨⟨"style.css", false, []⟩, by decide, by decide⟩

/-! ## C2: ordering of the assembled table -/

/-- `extractRecords` ignores subdirectories: it equals the flat map over the
non-directory entries. -/
theorem extractRecords_eq_filter (files : List (DirEntry α))
    (pagerange postrange : Option (List Int)) :
    extractRecords files pagerange postrange =
      (files.filter (fun e => !e.isDir)).flatMap
        (fun e =>
          if pageKept pagerange postrange (pageNumOf e) then recordsOfEntry postrange e
          else []) := by
  induction files with
  | nil => rfl
  | cons e rest ih =>
    by_cases hd : e.isDir
    · simp [extractRecords, List.filter_cons, hd] at ih ⊢
      exact ih
    · simp [extractRecords, List.filter_cons, hd] at ih ⊢
      rw [ih]

/-- With no range filters every message of every page file is extracted. -/
theorem extractRecords_none_none (files : List (DirEntry α)) :
    extractRecords files none none =
      (files.filter (fun e => !e.isDir)).flatMap
        (fun e => e.posts.map (fun p => ⟨p.1, pageNumOf e, p.2⟩)) := by
  rw [extractRecords_eq_filter]
  simp [pageKept, postKept, recordsOfEntry, List.filter_true]

/-- C2 counterexample: a directory with files `page-10.html` and
`page-2.html` is visited in digit-string order (`"10" < "2"`), so the
single-worker (one-partition) table holds post 181 before post 21: its
post_num column is not strictly increasing. -/
theorem C2_order_counterexample :
    construct_dataframe
      [(⟨"page-10.html", false, [(181, ())]⟩ : DirEntry Unit),
       ⟨"page-2.html", false, [(21, ())]⟩] none none =
      Except.ok [⟨181, 10, ()⟩, ⟨21, 2, ()⟩] ∧
    ¬ List.Pairwise (· < ·)
        (([⟨181, 10, ()⟩, ⟨21, 2, ()⟩] : List (PostRow Unit)).map PostRow.post_num) := by
  exact ⟨by rfl, by decide⟩

/-- C2 (amended): the single-worker table has strictly increasing post_num
*provided* the digit-string sort visits the files in ascending numeric page
order and each file's posts are strictly increasing within its page's post
interval; and every parallel merge is sorted by post_num — non-decreasing
always, strictly increasing when the post numbers are distinct. -/
theorem C2_order_amended :
    (∀ (α : Type) (dir : List (DirEntry α)) (tbl : List (PostRow α)),
      List.Pairwise (· < ·)
        (((sortEntries dir).filter (fun e => !e.isDir)).map pageNumOf) →
      (∀ e ∈ dir,
        List.Pairwise (· < ·) (e.posts.map Prod.fst) ∧
        ∀ p ∈ e.posts,
          get_first_post_from_page (pageNumOf e) ≤ p.1 ∧
          p.1 ≤ get_last_post_from_page (pageNumOf e)) →
      construct_dataframe dir none none = Except.ok tbl →
      List.Pairwise (· < ·) (tbl.map PostRow.post_num)) ∧
    (∀ (α : Type) (dir : List (DirEntry α)) (values : List Int) (isPost : Bool)
        (jobs : Nat) (tbl : List (PostRow α)),
      parallel_extract dir values isPost jobs = Except.ok tbl →
      List.Pairwise (fun a b => a ≤ b) (tbl.map PostRow.post_num) ∧
      ((tbl.map PostRow.post_num).Nodup →
        List.Pairwise (· < ·) (tbl.map PostRow.post_num))) := by
  constructor
  · intro α dir tbl h1 h2 hok
    have hr : (truthy (none : Option (List Int)) && truthy none) = false := rfl
    unfold construct_dataframe at hok
    rw [hr] at hok
    simp only [Bool.false_eq_true, if_false] at hok
    by_cases hnd : hasNoDigitEntry dir = true
    · rw [if_pos hnd] at hok
      exact Except.noConfusion hok
    · rw [if_neg hnd] at hok
      have htbl : extractRecords (sortEntries dir) none none = tbl := by
        exact (Except.ok.injEq _ _).mp hok
      subst htbl
      rw [extractRecords_none_none]
      have hmem : ∀ e ∈ (sortEntries dir).filter (fun e => !e.isDir), e ∈ dir := by
        intro e he
        exact (List.perm_insertionSort entryLe dir).mem_iff.mp (List.mem_filter.mp he).1
      rw [List.map_flatMap]
      simp only [List.map_map]
      rw [List.flatMap_def, List.pairwise_flatten]
      constructor
      · intro l hl
        rcases List.mem_map.mp hl with ⟨e, he, rfl⟩
        have hinner := (h2 e (hmem e he)).1
        simpa [Function.comp] using hinner
      · rw [List.pairwise_map]
        have h1m := List.pairwise_map.mp h1
        refine h1m.imp_of_mem ?_
        intro e1 e2 he1 he2 hpg
        intro x hx y hy
        simp only [List.mem_map, Function.comp] at hx hy
        rcases hx with ⟨p, hp, rfl⟩
        rcases hy with ⟨q, hq, rfl⟩
        have hb1 := ((h2 e1 (hmem e1 he1)).2 p hp).2
        have hb2 := ((h2 e2 (hmem e2 he2)).2 q hq).1
        simp only [get_first_post_from_page, get_last_post_from_page] at hb1 hb2
        have hadd : pageNumOf e1 + 1 ≤ pageNumOf e2 := Int.add_one_le_iff.mpr hpg
        show p.1 < q.1
        linarith
  · intro α dir values isPost jobs tbl h
    unfold parallel_extract at h
    by_cases hce :
        ((arraySplit values jobs).filter (fun c => !c.isEmpty)).isEmpty = true
    · rw [if_pos hce] at h
      exact Except.noConfusion h
    · rw [if_neg hce] at h
      rcases hml : exceptMapList (fun c =>
          construct_dataframe dir (if isPost then none else some c)
            (if isPost then some c else none))
          ((arraySplit values jobs).filter (fun c => !c.isEmpty)) with e | dfs
      · rw [hml] at h
        exact Except.noConfusion h
      · rw [hml] at h
        have htbl : sortByPostNum dfs.flatten = tbl := (Except.ok.injEq _ _).mp h
        subst htbl
        have hsorted : List.Pairwise rowLe (sortByPostNum dfs.flatten) :=
          List.sorted_insertionSort rowLe dfs.flatten
        have hle : List.Pairwise (fun a b => a ≤ b)
            ((sortByPostNum dfs.flatten).map PostRow.post_num) :=
          List.pairwise_map.mpr hsorted
        refine ⟨hle, ?_⟩
        intro hnd
        have hne : List.Pairwise (fun a b : PostRow α => a.post_num ≠ b.post_num)
            (sortByPostNum dfs.flatten) :=
          List.pairwise_map.mp hnd
        have := (List.pairwise_map.mp hle).and hne
        exact List.pairwise_map.mpr
          (this.imp (fun hab => lt_of_le_of_ne hab.1 hab.2))

/-- C2 witness: a zero-padded two-page directory yields the strictly
increasing single-worker table with post numbers 1, 2, 21. -/
theorem C2_order_amended_witness :
    List.Pairwise (· < ·)
      (([⟨1, 1, ()⟩, ⟨2, 1, ()⟩, ⟨21, 2, ()⟩] : List (PostRow Unit)).map
        PostRow.post_num) :=
  C2_order_amended.1 Unit
    [⟨"01.html", false, [(1, ()), (2, ())]⟩, ⟨"02.html", false, [(21, ())]⟩]
    [⟨1, 1, ()⟩, ⟨2, 1, ()⟩, ⟨21, 2, ()⟩]
    (by decide) (by decide) (by rfl)

/-! ## C1: the partition invariant -/

/-- Page selection by an arbitrary predicate: the common shape of a
single-worker run and of every page-chunk worker. -/
def selectPages (files : List (DirEntry α)) (sel : Int → Bool) : List (PostRow α) :=
  files.flatMap (fun e =>
    if e.isDir then []
    else if sel (pageNumOf e) then e.posts.map (fun p => ⟨p.1, pageNumOf e, p.2⟩)
    else [])

/-- A run filtered by a non-empty page list is a `selectPages` by list
membership. -/
theorem extractRecords_pagelist (files : List (DirEntry α)) (c : List Int)
    (hc : c ≠ []) :
    extractRecords files (some c) none =
      selectPages files (fun pg => c.contains pg) := by
  have hce : c.isEmpty = false := by simp [List.isEmpty_iff, hc]
  unfold extractRecords selectPages
  simp [pageKept, postKept, recordsOfEntry, hce, List.filter_true]

/-- Selecting no pages yields no rows. -/
theorem selectPages_false (files : List (DirEntry α)) :
    selectPages files (fun _ => false) = [] := by
  induction files with
  | nil => rfl
  | cons e rest ih =>
    simp only [selectPages, List.flatMap_cons] at ih ⊢
    rw [ih]
    by_cases hd : e.isDir
    · simp [hd]
    · simp [hd]

/-- Splitting a disjoint union of page selections splits the rows, up to
permutation (each page file goes to exactly one side). -/
theorem selectPages_or_perm (files : List (DirEntry α)) (p q : Int → Bool)
    (hdisj : ∀ x, p x = true → q x = false) :
    List.Perm (selectPages files (fun x => p x || q x))
      (selectPages files p ++ selectPages files q) := by
  induction files with
  | nil => simp [selectPages]
  | cons e rest ih =>
    simp only [selectPages, List.flatMap_cons] at ih ⊢
    by_cases hd : e.isDir
    · simp only [hd, if_true, List.nil_append]
      exact ih
    · simp only [hd, Bool.false_eq_true, if_false]
      by_cases hp : p (pageNumOf e) = true
      · have hq := hdisj _ hp
        rw [if_pos (show (p (pageNumOf e) || q (pageNumOf e)) = true by simp [hp]),
          if_pos hp, if_neg (show ¬ q (pageNumOf e) = true by simp [hq]),
          List.nil_append, List.append_assoc]
        exact ih.append_left _
      · by_cases hq : q (pageNumOf e) = true
        · rw [if_pos (show (p (pageNumOf e) || q (pageNumOf e)) = true by simp [hq]),
            if_neg hp, if_pos hq, List.nil_append]
          refine (ih.append_left _).trans ?_
          rw [← List.append_assoc, ← List.append_assoc]
          exact List.Perm.append_right _ List.perm_append_comm
        · rw [if_neg (show ¬ (p (pageNumOf e) || q (pageNumOf e)) = true by simp [hp, hq]),
            if_neg hp, if_neg hq, List.nil_append, List.nil_append]
          exact ih

/-- `contains` distributes over append. -/
theorem contains_append_int (a b : List Int) (x : Int) :
    (a ++ b).contains x = (a.contains x || b.contains x) := by
  induction a with
  | nil => simp
  | cons y ys ih => simp [List.contains_cons, ih, Bool.or_assoc]

/-- Chunked page selection is a permutation of selection by the chunks'
union, provided the chunk values are globally distinct. -/
theorem selectPages_chunks_perm (files : List (DirEntry α)) :
    ∀ chunks : List (List Int), (chunks.flatten).Nodup →
      List.Perm (chunks.flatMap (fun c => selectPages files (fun pg => c.contains pg)))
        (selectPages files (fun pg => (chunks.flatten).contains pg)) := by
  intro chunks
  induction chunks with
  | nil =>
    intro _
    simp only [List.flatMap_nil, List.flatten_nil]
    have : selectPages files (fun pg => ([] : List Int).contains pg) =
        selectPages files (fun _ => false) := rfl
    rw [this, selectPages_false]
  | cons c rest ih =>
    intro hnd
    simp only [List.flatten_cons] at hnd
    have hdisj : ∀ x : Int, c.contains x = true → (rest.flatten).contains x = false := by
      intro x hx
      have hxc : x ∈ c := List.elem_iff.mp hx
      have hdis := List.disjoint_of_nodup_append hnd
      have hxr : x ∉ rest.flatten := hdis hxc
      exact Bool.eq_false_iff.mpr (fun hc => hxr (List.elem_iff.mp hc))
    have hsel : (fun pg => (c ++ rest.flatten).contains pg) =
        (fun pg => c.contains pg || (rest.flatten).contains pg) := by
      funext pg
      exact contains_append_int c rest.flatten pg
    simp only [List.flatMap_cons, List.flatten_cons, hsel]
    refine List.Perm.trans ?_ (selectPages_or_perm files _ _ hdisj).symm
    exact (ih (List.Nodup.of_append_right hnd)).append_left _

/-- One unfolding step of `np.array_split`. -/
theorem arraySplit_succ (l : List Int) (w : Nat) :
    arraySplit l (Nat.succ w) =
      l.take (l.length / (w + 1) + if l.length % (w + 1) = 0 then 0 else 1) ::
        arraySplit
          (l.drop (l.length / (w + 1) + if l.length % (w + 1) = 0 then 0 else 1)) w :=
  rfl

/-- `np.array_split` concatenates back to the split list (for at least one
chunk). -/
theorem arraySplit_flatten (jobs : Nat) :
    ∀ l : List Int, 1 ≤ jobs → (arraySplit l jobs).flatten = l := by
  induction jobs with
  | zero => intro l h; exact absurd h (by decide)
  | succ w ih =>
    intro l _
    cases w with
    | zero =>
      rw [arraySplit_succ]
      simp [arraySplit, Nat.mod_one, Nat.div_one, List.take_length]
    | succ w' =>
      rw [arraySplit_succ, List.flatten_cons]
      rw [ih _ (Nat.succ_le_succ (Nat.zero_le w'))]
      exact List.take_append_drop _ l

/-- Dropping empty chunks does not change the concatenation. -/
theorem flatten_filter_nonempty (L : List (List Int)) :
    (L.filter (fun c => !c.isEmpty)).flatten = L.flatten := by
  induction L with
  | nil => rfl
  | cons c rest ih =>
    by_cases hc : c.isEmpty = true
    · have : c = [] := List.isEmpty_iff.mp hc
      subst this
      simpa [List.filter_cons] using ih
    · simp [List.filter_cons, hc, ih]

/-- `pool.starmap` with every worker succeeding collects the workers'
tables in order. -/
theorem exceptMapList_ok {f : β → Except PyErr γ} {g : β → γ} :
    ∀ l : List β, (∀ b ∈ l, f b = Except.ok (g b)) →
      exceptMapList f l = Except.ok (l.map g) := by
  intro l
  induction l with
  | nil => intro _; rfl
  | cons b bs ih =>
    intro h
    have hb := h b (List.mem_cons_self b bs)
    have hbs := ih (fun x hx => h x (List.mem_cons_of_mem b hx))
    simp [exceptMapList, hb, hbs]

/-- A list permuting with a post_num-strictly-increasing list sorts to
exactly that list. -/
theorem sort_eq_of_perm_strict {α : Type} {X tbl : List (PostRow α)}
    (hperm : List.Perm X tbl)
    (hstrict : List.Pairwise (· < ·) (tbl.map PostRow.post_num)) :
    sortByPostNum X = tbl := by
  have hr : List.Pairwise (fun a b : PostRow α => a.post_num < b.post_num) tbl :=
    List.pairwise_map.mp hstrict
  haveI : IsAntisymm (PostRow α)
      (fun a b => a.post_num < b.post_num ∨ a = b) := by
    refine ⟨fun a b h1 h2 => ?_⟩
    rcases h1 with h1 | h1
    · rcases h2 with h2 | h2
      · exact absurd h2 (not_lt.mpr (le_of_lt h1))
      · exact h2.symm
    · exact h1
  apply List.eq_of_perm_of_sorted
    (r := fun a b : PostRow α => a.post_num < b.post_num ∨ a = b)
    ((List.perm_insertionSort rowLe X).trans hperm)
  · -- the sorted output is strictly increasing in post_num
    have hsorted : List.Pairwise rowLe (sortByPostNum X) :=
      List.sorted_insertionSort rowLe X
    have hpermmap : List.Perm ((sortByPostNum X).map PostRow.post_num)
        (tbl.map PostRow.post_num) :=
      ((List.perm_insertionSort rowLe X).trans hperm).map PostRow.post_num
    have hnd : ((sortByPostNum X).map PostRow.post_num).Nodup :=
      hpermmap.nodup_iff.mpr (hstrict.imp (fun h => ne_of_lt h))
    have hne : List.Pairwise (fun a b : PostRow α => a.post_num ≠ b.post_num)
        (sortByPostNum X) :=
      List.pairwise_map.mp hnd
    exact (hsorted.and hne).imp (fun h => Or.inl (lt_of_le_of_ne h.1 h.2))
  · exact hr.imp (fun h => Or.inl h)

/-- C1 counterexample: post-range `[20, 21, 22]` over a two-page directory
(page 1 holding post 20, page 2 holding posts 21 and 22), split into 2
chunks `[20, 21]` and `[22]`.  The worker given chunk `[22]` skips page 2
entirely — neither the first (21) nor the last (40) post of that page lies
in its chunk — so post 22 is lost, while the single-worker run over the
same range returns it. -/
theorem C1_partition_counterexample :
    parallel_extract
      [(⟨"1", false, [(20, ())]⟩ : DirEntry Unit), ⟨"2", false, [(21, ()), (22, ())]⟩]
      [20, 21, 22] true 2 =
      Except.ok [⟨20, 1, ()⟩, ⟨21, 2, ()⟩] ∧
    construct_dataframe
      [(⟨"1", false, [(20, ())]⟩ : DirEntry Unit), ⟨"2", false, [(21, ()), (22, ())]⟩]
      none (some [20, 21, 22]) =
      Except.ok [⟨20, 1, ()⟩, ⟨21, 2, ()⟩, ⟨22, 2, ()⟩] ∧
    ([⟨20, 1, ()⟩, ⟨21, 2, ()⟩] : List (PostRow Unit)) ≠
      [⟨20, 1, ()⟩, ⟨21, 2, ()⟩, ⟨22, 2, ()⟩] := by
  exact ⟨by rfl, by rfl, by decide⟩

/-- C1 (amended): for *page-range* selections (and the no-range case, whose
chunks are likewise passed as page lists), partitioning the selected values
into `jobs ≥ 1` contiguous chunks, running each chunk independently,
concatenating and sorting by post_num reproduces the single-worker table —
provided the selected values are distinct and the single-worker table is
strictly increasing in post_num.  For post-range selections the equality
fails (see the counterexample). -/
theorem C1_partition_amended (α : Type) (dir : List (DirEntry α)) (values : List Int)
    (jobs : Nat) (tbl : List (PostRow α))
    (hjobs : 1 ≤ jobs) (hvne : values ≠ []) (hnodup : values.Nodup)
    (hok : construct_dataframe dir (some values) none = Except.ok tbl)
    (hstrict : List.Pairwise (· < ·) (tbl.map PostRow.post_num)) :
    parallel_extract dir values false jobs = Except.ok tbl := by
  have hr : (truthy (some values) && truthy (none : Option (List Int))) = false :=
    Bool.and_false _
  unfold construct_dataframe at hok
  rw [hr] at hok
  simp only [Bool.false_eq_true, if_false] at hok
  by_cases hnd : hasNoDigitEntry dir = true
  · rw [if_pos hnd] at hok
    exact Except.noConfusion hok
  rw [if_neg hnd] at hok
  have htbl : extractRecords (sortEntries dir) (some values) none = tbl :=
    (Except.ok.injEq _ _).mp hok
  unfold parallel_extract
  set chunks := (arraySplit values jobs).filter (fun c => !c.isEmpty) with hchunks
  have hflat : chunks.flatten = values := by
    rw [hchunks, flatten_filter_nonempty, arraySplit_flatten jobs values hjobs]
  have hcne : ¬ chunks.isEmpty = true := by
    intro hc
    have hc2 : chunks = [] := List.isEmpty_iff.mp hc
    rw [hc2] at hflat
    simp only [List.flatten_nil] at hflat
    exact hvne hflat.symm
  rw [if_neg hcne]
  have hworker : ∀ c ∈ chunks,
      construct_dataframe dir (if (false : Bool) then none else some c)
        (if (false : Bool) then some c else none) =
      Except.ok (selectPages (sortEntries dir) (fun pg => c.contains pg)) := by
    intro c hc
    have hcne2 : c ≠ [] := by
      have hmf := List.of_mem_filter hc
      simpa [List.isEmpty_iff] using hmf
    show construct_dataframe dir (some c) none = _
    unfold construct_dataframe
    have hr2 : (truthy (some c) && truthy (none : Option (List Int))) = false :=
      Bool.and_false _
    rw [hr2]
    simp only [Bool.false_eq_true, if_false]
    rw [if_neg hnd, extractRecords_pagelist _ c hcne2]
  rw [exceptMapList_ok chunks hworker]
  show Except.ok (sortByPostNum
      ((chunks.map (fun c =>
        selectPages (sortEntries dir) (fun pg => c.contains pg))).flatten)) =
    Except.ok tbl
  congr 1
  have hXperm : List.Perm
      ((chunks.map (fun c =>
        selectPages (sortEntries dir) (fun pg => c.contains pg))).flatten) tbl := by
    rw [← List.flatMap_def]
    have h3 := selectPages_chunks_perm (sortEntries dir) chunks (by rw [hflat]; exact hnodup)
    rw [hflat] at h3
    have hsel : selectPages (sortEntries dir) (fun pg => values.contains pg) = tbl := by
      rw [← extractRecords_pagelist _ values hvne, htbl]
    rw [hsel] at h3
    exact h3
  exact sort_eq_of_perm_strict hXperm hstrict

/-- C1 witness: one page, one chunk, one worker. -/
theorem C1_partition_amended_witness :
    parallel_extract [(⟨"1", false, [(1, ()), (2, ())]⟩ : DirEntry Unit)] [1] false 1 =
      Except.ok [⟨1, 1, ()⟩, ⟨2, 1, ()⟩] :=
  C1_partition_amended Unit [⟨"1", false, [(1, ()), (2, ())]⟩] [1] 1
    [⟨1, 1, ()⟩, ⟨2, 1, ()⟩] (by decide) (by decide) (by decide) (by rfl) (by decide)

end Grubengeraet
